import Mathlib

/-!
Verification development for the PyTripalSerializer crawl/merge engine
(`src/tripser/tripser.py`).

The embedding models:
* rdflib terms (`Node`) and triples (`Trip`); an rdflib `Graph` is a set of
  triples (`Finset Trip`) where set semantics matter (accumulation, cleanup),
  and a `List Trip` where iteration order matters (`recursively_add`).
* the module-level functions `recursively_add`, `cleanup`, `remove_terms`
  and the error discrimination of `get_graph`;
* the wave loop of `RecursiveJSONLDParser.parse`, with the dask client
  abstracted into a `Fetcher` (the result of a submitted `recursively_add`
  call: a list of collected task URIs plus the fetched graph);
* the constructor / property-setter validation, with Python values of the
  relevant runtime types embedded as `PyValue`;
* the defensive copy performed by the `graph` property setter, over a tiny
  heap of graph cells so that aliasing is expressible.
-/

namespace Tripser

/-- An rdflib term: a URI reference, an integer-typed literal, or a plain
string literal.  rdflib's `URIRef` and `Literal` are both `str` subclasses,
so string operations such as `startswith` act on the textual form. -/
inductive Node where
  | uriRef (s : String)
  | intLit (n : Int)
  | strLit (s : String)
deriving DecidableEq

/-- The textual (`str`) form of a term. -/
def Node.text : Node → String
  | .uriRef s => s
  | .intLit n => toString n
  | .strLit s => s

/-- Python `term.startswith(p)` on the textual form, working on the character
sequence. -/
def Node.textStartsWith (t : Node) (p : String) : Bool :=
  p.data.isPrefixOf t.text.data

/-- Python `term.toPython()` when an integer is expected.  A non-integer object
makes the later arithmetic (`math.ceil(nom / limit)`) raise `TypeError`,
which the embedding renders as `none`. -/
def Node.toPythonInt : Node → Option Int
  | .intLit n => some n
  | _ => none

/-- One RDF statement (subject, predicate, object).  Predicates are always
URI references, kept as plain strings. -/
structure Trip where
  subj : Node
  pred : String
  obj : Node
deriving DecidableEq

/-- URI `http://www.w3.org/ns/hydra/core#PartialCollectionView`. -/
def hydraPCV : String := "http://www.w3.org/ns/hydra/core#PartialCollectionView"

/-- URI `http://www.w3.org/ns/hydra/core#totalItems`. -/
def hydraTotalItems : String := "http://www.w3.org/ns/hydra/core#totalItems"

/-- The content namespace used by the link-discovery filter. -/
def contentNamespace : String := "http://pflu.evolbio.mpg.de/web-services/content/"

/-- The link-discovery loop of `recursively_add` (lines 187-195): skip the
two hydra bookkeeping predicates, collect `str(obj)` for every object whose
textual form starts with the content namespace. -/
def collectedTasksOf (gloc : List Trip) : List String :=
  gloc.filterMap (fun t =>
    if t.pred = hydraPCV then none
    else if t.pred = hydraTotalItems then none
    else if t.obj.textStartsWith contentNamespace then some t.obj.text
    else none)

/-- Python `gloc.objects(predicate=URIRef(hydra totalItems))`. -/
def totalMembers (gloc : List Trip) : List Node :=
  gloc.filterMap (fun t => if t.pred = hydraTotalItems then some t.obj else none)

/-- Python `math.ceil(nom / limit)` with `limit = 25`: true division followed by
the ceiling, written as an executable integer ceiling division.
`pageCount_eq_ceil` below proves it equal to `⌈nom / 25⌉` over ℚ. -/
def pageCount (nom : Int) : Int := -((-nom) / 25)

/-- The synthesized page tasks
`URIRef(task + "?limit={}&page={}".format(limit, page)) for page in
range(1, math.ceil(nom / limit) + 1)`. -/
def pageTasks (task : String) (nom : Int) : List String :=
  (List.range' 1 (pageCount nom).toNat).map
    (fun page => task ++ "?limit=25&page=" ++ toString page)

/-- Function `recursively_add(task)` (lines 172-223), with the already-fetched graph
`gloc` passed explicitly in place of the `get_graph` call.  Returns the
collected tasks and the local graph; `none` models the `TypeError` raised
when the first `totalItems` object is not an integer. -/
def recursively_add (task : String) (gloc : List Trip) :
    Option (List String × List Trip) :=
  if (task.data.splitOn '&').length > 1 then some (collectedTasksOf gloc, gloc)
  else
    match totalMembers gloc with
    | [] => some (collectedTasksOf gloc, gloc)
    | m :: _ =>
      match m.toPythonInt with
      | none => none
      | some nom =>
        if nom = 0 then some (collectedTasksOf gloc, gloc)
        else some (collectedTasksOf gloc ++ pageTasks task nom, gloc)

/-- A triple pattern as passed to `remove_terms`: `none` components are
wildcards. -/
structure TripPattern where
  subj : Option Node
  pred : Option String
  obj : Option Node

/-- Whether a triple matches a pattern. -/
def matchesPattern (p : TripPattern) (t : Trip) : Bool :=
  (match p.subj with | some s => t.subj = s | none => true) &&
  (match p.pred with | some pr => t.pred = pr | none => true) &&
  (match p.obj with | some o => t.obj = o | none => true)

/-- Function `remove_terms(grph, terms)` (lines 245-262): remove every triple
matching the pattern; on a set-of-triples graph this is a set difference,
i.e. a filter keeping the non-matching triples. -/
def remove_terms (grph : Finset Trip) (terms : TripPattern) : Finset Trip :=
  grph.filter (fun t => ¬ matchesPattern terms t)

/-- Function `cleanup(grph)` (lines 225-240): the three fixed removal patterns, in
source order. -/
def cleanup (grph : Finset Trip) : Finset Trip :=
  remove_terms
    (remove_terms
      (remove_terms grph
        ⟨none, none, some (Node.uriRef "file:///tmp/PartialCollectionView")⟩)
      ⟨none, none,
        some (Node.uriRef
          "http://pflu.evolbio.mpg.de/web-services/content/v0.1/PartialCollectionView")⟩)
    ⟨none, some hydraPCV, none⟩

/-- The outcome of the fetch-and-parse pipeline inside `get_graph`
(lines 281-297): the body decoded and parsed into triples, one of the two
caught JSON decode errors, or any other raised exception. -/
inductive FetchOutcome where
  | body (stmts : List Trip)
  | jsonDecodeError
  | requestsJSONDecodeError
  | otherError (e : String)

/-- The exception handling of `get_graph` (lines 278-306): both JSON decode
errors are swallowed (warning logged) and the graph stays empty; every
other exception is re-raised unmodified. -/
def get_graph (outcome : FetchOutcome) : Except String (List Trip) :=
  match outcome with
  | .body stmts => .ok stmts
  | .jsonDecodeError => .ok []
  | .requestsJSONDecodeError => .ok []
  | .otherError e => .error e

/-- A collection document URI (no query string yet) declaring 253 items. -/
def cTotalTask : String := "http://pflu.evolbio.mpg.de/web-services/content/v0.1/Gene"

/-- A fetched graph holding exactly one hydra totalItems statement with
integer value 253. -/
def cTotalGloc : List Trip :=
  [⟨Node.uriRef cTotalTask, hydraTotalItems, Node.intLit 253⟩]

/-- A task URI that already carries a query string introduced by the
query-string separator character, but holds no parameter separator. -/
def cPagTask : String :=
  "http://pflu.evolbio.mpg.de/web-services/content/v0.1/Gene?limit=25"

/-- A fetched graph declaring 50 total items. -/
def cPagGloc : List Trip :=
  [⟨Node.uriRef "file:///tmp/a", hydraTotalItems, Node.intLit 50⟩]

/-- A synthesized-page-shaped task URI (carries the parameter separator). -/
def cAmpTask : String :=
  "http://pflu.evolbio.mpg.de/web-services/content/v0.1/Gene?limit=25&page=1"

/-- The mutable state of `RecursiveJSONLDParser.parse` (lines 129-131):
the pending task list, the `parsed_pages` bookkeeping list, and the
accumulated graph. -/
structure ParseState where
  tasks : List String
  parsed_pages : List String
  graph : Finset Trip
deriving DecidableEq

/-- The dask client boundary: a submitted `recursively_add(task)` resolves
to `result[0]` (the collected task URIs) and `result[1]` (the fetched
graph).  The loop claims hold for arbitrary results, so the worker side is
abstracted into a total function. -/
def Fetcher := String → List String × Finset Trip

/-- Constant `chunk_length = 8` (line 138). -/
def chunk_length : Nat := 8

/-- Line 139, `task_chunks = [tasks[chunk_length*s:chunk_length*(s+1)]
for s in range(len(tasks)//chunk_length)]` (line 139): note the floor
division in the `range` bound. -/
def taskChunks (tasks : List String) : List (List String) :=
  (List.range (tasks.length / chunk_length)).map
    (fun s => (tasks.drop (chunk_length * s)).take chunk_length)

/-- All tasks submitted to the client in one wave: the concatenation of the
chunks. -/
def dispatchedTasks (tasks : List String) : List String :=
  (taskChunks tasks).flatten

/-- One iteration of the while loop (lines 133-156): submit every chunk
(recording each chunk in `parsed_pages`), gather the results, extend the
graph, collect the result tasks, and keep
`list(set(tasks).difference(set(parsed_pages)))` as the next frontier. -/
def wave (F : Fetcher) (st : ParseState) : ParseState :=
  let dispatched := dispatchedTasks st.tasks
  let parsedNew := st.parsed_pages ++ dispatched
  let results := dispatched.map F
  let collected := (results.map Prod.fst).flatten
  let graphNew := results.foldl (fun g r => g ∪ r.2) st.graph
  { tasks := collected.dedup.filter (fun t => decide (t ∉ parsedNew)),
    parsed_pages := parsedNew,
    graph := graphNew }

/-- The while loop of `parse`, fuelled; returns the final state and the
trace of every task dispatched to the client, or `none` when the fuel ran
out before the frontier emptied. -/
def parseLoop (F : Fetcher) : Nat → ParseState → Option (ParseState × List String)
  | 0, st => if st.tasks = [] then some (st, []) else none
  | fuel + 1, st =>
    if st.tasks = [] then some (st, [])
    else
      (parseLoop F fuel (wave F st)).map
        (fun r => (r.1, dispatchedTasks st.tasks ++ r.2))

/-- A typical sole entry point. -/
def cEntry : String := "http://pflu.evolbio.mpg.de/web-services/content/v0.1/TMRNA"

/-- A fetcher discovering one fresh link per fetched task. -/
def cFetchLink : Fetcher := fun t => ([t ++ "/x"], ∅)

/-- A fetcher discovering nothing. -/
def cFetchNone : Fetcher := fun _ => ([], ∅)

/-- Eight distinct pending tasks (one full chunk). -/
def cTasks8 : List String :=
  ["http://pflu.evolbio.mpg.de/web-services/content/v0.1/Gene/1",
   "http://pflu.evolbio.mpg.de/web-services/content/v0.1/Gene/2",
   "http://pflu.evolbio.mpg.de/web-services/content/v0.1/Gene/3",
   "http://pflu.evolbio.mpg.de/web-services/content/v0.1/Gene/4",
   "http://pflu.evolbio.mpg.de/web-services/content/v0.1/Gene/5",
   "http://pflu.evolbio.mpg.de/web-services/content/v0.1/Gene/6",
   "http://pflu.evolbio.mpg.de/web-services/content/v0.1/Gene/7",
   "http://pflu.evolbio.mpg.de/web-services/content/v0.1/Gene/8"]

/-- A heap of graph cells.  Python object references become indices, so
aliasing between the caller's graph and the parser's graph is observable. -/
structure Heap where
  cells : List (Finset Trip)

/-- Dereference a cell (out-of-range reads, never exercised, default to the
empty graph). -/
def Heap.get (h : Heap) (r : Nat) : Finset Trip := h.cells.getD r ∅

/-- Overwrite a cell in place. -/
def Heap.set (h : Heap) (r : Nat) (g : Finset Trip) : Heap := ⟨h.cells.set r g⟩

/-- The `graph` property setter (lines 78-87):
`self.__graph = copy.deepcopy(value)` allocates a fresh cell holding a copy
of the caller's statements and stores the fresh reference. -/
def graphSetter (h : Heap) (caller : Nat) : Heap × Nat :=
  (⟨h.cells ++ [h.get caller]⟩, h.cells.length)

/-- An in-place update of one graph cell, as in `graph += result[1]`
(line 152). -/
def mutateAt (h : Heap) (r : Nat) (f : Finset Trip → Finset Trip) : Heap :=
  h.set r (f (h.get r))

/-- A complete crawl, as far as the heap is concerned: some sequence of
in-place updates of the parser's own graph cell. -/
def crawlMutations (h : Heap) (r : Nat) (fs : List (Finset Trip → Finset Trip)) : Heap :=
  fs.foldl (fun hh f => mutateAt hh r f) h

/-- A one-cell heap owned by the caller. -/
def cHeap : Heap := ⟨[{⟨Node.uriRef "s", "p", Node.uriRef "o"⟩}]⟩

/-- A crawl that merges one extra statement into the parser's graph. -/
def cMerge : List (Finset Trip → Finset Trip) :=
  [fun g => insert ⟨Node.uriRef "s2", "p2", Node.uriRef "o2"⟩ g]

/-- The Python runtime values relevant to constructor validation:
`None`, `bool`, `str`, `rdflib.URIRef`, `rdflib.Graph`, and anything
else. -/
inductive PyValue where
  | pyNone
  | pyBool (b : Bool)
  | pyStr (s : String)
  | pyURIRef (s : String)
  | pyGraph (g : Finset Trip)
  | pyOther (descr : String)
deriving DecidableEq

/-- The `serialize_nodes` setter (lines 64-71): `None` defaults to `False`;
a non-bool raises `TypeError`. -/
def serialize_nodes_setter : PyValue → Except String Bool
  | .pyNone => .ok false
  | .pyBool b => .ok b
  | _ => .error "TypeError: serialize_nodes must be a bool"

/-- The `graph` setter (lines 78-87) at the type level: `None` creates a
fresh empty graph; a graph value is accepted (and deep-copied, see
`graphSetter`); anything else raises `TypeError`. -/
def graph_value_setter : PyValue → Except String (Finset Trip)
  | .pyNone => .ok ∅
  | .pyGraph g => .ok g
  | _ => .error "TypeError: expected instance of rdflib.Graph"

/-- The `entry_point` setter (lines 102-117): `None` leaves the entry point
unset (warning only); a `str` is wrapped into a `URIRef`; a `URIRef` is
kept; anything else raises `TypeError`. -/
def entry_point_setter : PyValue → Except String (Option String)
  | .pyNone => .ok none
  | .pyStr s => .ok (some s)
  | .pyURIRef s => .ok (some s)
  | _ => .error "TypeError: neither a rdflib.URIRef instance nor str"

/-- The configuration produced by a successful construction, including the
initial task list seeded by the entry-point setter (line 117). -/
structure ParserConfig where
  graph : Finset Trip
  serialize_nodes : Bool
  entry_point : Option String
  tasks : List String
deriving DecidableEq

/-- Constructor `RecursiveJSONLDParser.__init__` (lines 21-43) restricted to the three
validated public attributes, run in source order (graph, serialize_nodes,
entry_point); the first failing setter raises synchronously. -/
def initParser (graphArg serializeArg entryArg : PyValue) :
    Except String ParserConfig := do
  let g ← graph_value_setter graphArg
  let sn ← serialize_nodes_setter serializeArg
  let ep ← entry_point_setter entryArg
  return { graph := g, serialize_nodes := sn, entry_point := ep,
           tasks := match ep with | some e => [e] | none => [] }

/-- A graph argument of a valid runtime type. -/
def validGraphArg : PyValue → Bool
  | .pyNone => true
  | .pyGraph _ => true
  | _ => false

/-- A serialize_nodes argument of a valid runtime type. -/
def validBoolArg : PyValue → Bool
  | .pyNone => true
  | .pyBool _ => true
  | _ => false

/-- An entry-point argument of a valid runtime type. -/
def validEntryArg : PyValue → Bool
  | .pyNone => true
  | .pyStr _ => true
  | .pyURIRef _ => true
  | _ => false

/-- Whether construction raised. -/
def isTypeError : Except String ParserConfig → Bool
  | .error _ => true
  | .ok _ => false

end Tripser

namespace Tripser

/-- Definition `pageCount` is exactly `math.ceil(nom / 25)`: the ceiling of the true
quotient. -/
theorem pageCount_eq_ceil (nom : Int) : pageCount nom = ⌈(nom : ℚ) / (25 : ℚ)⌉ := by
  have h : ⌈(nom : ℚ) / (25 : ℚ)⌉ = -⌊-((nom : ℚ) / (25 : ℚ))⌋ := by
    rw [Int.floor_neg]; ring
  rw [h]
  unfold pageCount
  congr 1
  rw [neg_div' (25 : ℚ) (nom : ℚ)]
  rw [show ((25 : ℚ)) = ((25 : ℕ) : ℚ) by norm_num,
      show (-(nom : ℚ)) = (((-nom : ℤ)) : ℚ) by push_cast; ring,
      Rat.floor_intCast_div_natCast]
  norm_num

/-- For a positive count the number of pages is the usual natural ceiling
division `(N + 24) / 25`. -/
theorem pageCount_pos_toNat (N : Int) (h : 0 < N) :
    (pageCount N).toNat = (N.toNat + 24) / 25 := by
  unfold pageCount
  omega

/-- Claim C3: for a Task that is not already paginated, a fetched graph with
no totalItems statement synthesizes no page tasks; a totalItems value of 0
synthesizes none; a positive totalItems value N synthesizes exactly
ceil(N / 25) page tasks, namely the base URI with `?limit=25&page=k` for
k = 1 .. ceil(N / 25), appended after the discovered link candidates. -/
theorem pagination_expansion_count (task : String) (gloc : List Trip) (N : Int)
    (hguard : ¬ (task.data.splitOn '&').length > 1) :
    (totalMembers gloc = [] →
      recursively_add task gloc = some (collectedTasksOf gloc, gloc)) ∧
    (totalMembers gloc = [Node.intLit N] →
      (N = 0 → recursively_add task gloc = some (collectedTasksOf gloc, gloc)) ∧
      (0 < N → recursively_add task gloc =
        some (collectedTasksOf gloc ++
          (List.range' 1 ((N.toNat + 24) / 25)).map
            (fun k => task ++ "?limit=25&page=" ++ toString k), gloc))) := by
  refine ⟨fun hm => ?_, fun hm => ⟨fun h0 => ?_, fun hpos => ?_⟩⟩
  · unfold recursively_add
    rw [if_neg hguard, hm]
  · unfold recursively_add
    rw [if_neg hguard, hm]
    subst h0
    simp [Node.toPythonInt]
  · unfold recursively_add
    rw [if_neg hguard, hm]
    have hne : ¬ N = 0 := by omega
    simp only [Node.toPythonInt, if_neg hne]
    unfold pageTasks
    rw [pageCount_pos_toNat N hpos]

/-- Witness for C3 at the spec's example: 253 items yield 11 page tasks,
pages 1 through 11. -/
theorem pagination_expansion_count_w :
    recursively_add cTotalTask cTotalGloc =
      some ((List.range' 1 11).map
        (fun k => cTotalTask ++ "?limit=25&page=" ++ toString k), cTotalGloc) := by
  have h :=
    ((pagination_expansion_count cTotalTask cTotalGloc 253 (by decide)).2
      (by decide)).2 (by decide)
  rw [h]
  decide

/-- Counterexample for C4 as stated: this Task URI contains the query-string
separator character, yet `recursively_add` still synthesizes page tasks
(two of them) beyond the (empty) discovered link candidates, because the
code only checks for the parameter separator. -/
theorem query_separator_guard_cex :
    cPagTask.data.contains (Char.ofNat 63) = true ∧
    collectedTasksOf cPagGloc = [] ∧
    recursively_add cPagTask cPagGloc =
      some ([cPagTask ++ "?limit=25&page=1", cPagTask ++ "?limit=25&page=2"],
        cPagGloc) := by
  refine ⟨by decide, by decide, by decide⟩

/-- Claim C4, amended: the already-paginated guard fires on the parameter
separator: for every Task whose URI splits into more than one piece on that
separator (in particular every synthesized page Task), `recursively_add`
returns only the discovered link candidates and never synthesizes page
tasks, even if the fetched document reports a total-item count. -/
theorem already_paginated_amp_guard (task : String) (gloc : List Trip)
    (h : (task.data.splitOn '&').length > 1) :
    recursively_add task gloc = some (collectedTasksOf gloc, gloc) := by
  unfold recursively_add
  rw [if_pos h]

/-- Witness for amended C4: a synthesized-page-shaped URI with a reported
total-item count comes back with link candidates only. -/
theorem already_paginated_amp_guard_w :
    recursively_add cAmpTask cPagGloc = some (collectedTasksOf cPagGloc, cPagGloc) :=
  already_paginated_amp_guard cAmpTask cPagGloc (by decide)

/-- Claim C5: both caught JSON decode errors produce an empty graph (the
crawl continues); every other exception is re-raised unmodified; a decoded
body parses into its triples. -/
theorem get_graph_error_discrimination :
    get_graph .jsonDecodeError = .ok [] ∧
    get_graph .requestsJSONDecodeError = .ok [] ∧
    (∀ e, get_graph (.otherError e) = .error e) ∧
    (∀ stmts, get_graph (.body stmts) = .ok stmts) :=
  ⟨rfl, rfl, fun _ => rfl, fun _ => rfl⟩

/-- The flattened chunk list is the longest multiple-of-`chunk_length`
head of the task list. -/
theorem taskChunks_flatten (k : Nat) (l : List String) :
    ((List.range k).map
      (fun s => (l.drop (chunk_length * s)).take chunk_length)).flatten
      = l.take (chunk_length * k) := by
  induction k with
  | zero => simp
  | succ n ih =>
      rw [List.range_succ, List.map_append, List.flatten_append, ih]
      simp [Nat.mul_succ, List.take_add]

/-- What one wave actually submits: the first `chunk_length * (n /
chunk_length)` pending tasks. -/
theorem dispatchedTasks_eq (tasks : List String) :
    dispatchedTasks tasks = tasks.take (chunk_length * (tasks.length / chunk_length)) := by
  unfold dispatchedTasks taskChunks
  exact taskChunks_flatten _ _

/-- The dispatched tasks form a sublist of the pending tasks. -/
theorem dispatchedTasks_sublist (tasks : List String) :
    List.Sublist (dispatchedTasks tasks) tasks := by
  rw [dispatchedTasks_eq]
  exact List.take_sublist _ _

/-- A frontier smaller than one chunk dispatches nothing at all. -/
theorem dispatchedTasks_small (tasks : List String)
    (h : tasks.length < chunk_length) : dispatchedTasks tasks = [] := by
  rw [dispatchedTasks_eq, Nat.div_eq_of_lt h]
  simp

/-- A frontier of at least one chunk dispatches something. -/
theorem dispatchedTasks_ne_nil (tasks : List String)
    (h : chunk_length ≤ tasks.length) : dispatchedTasks tasks ≠ [] := by
  rw [dispatchedTasks_eq]
  have h1 : 1 ≤ tasks.length / chunk_length :=
    (Nat.one_le_div_iff (by norm_num [chunk_length])).2 h
  have h2 : chunk_length ≤ chunk_length * (tasks.length / chunk_length) := by
    calc chunk_length = chunk_length * 1 := by ring
    _ ≤ _ := Nat.mul_le_mul_left _ h1
  intro hc
  have hlen := congrArg List.length hc
  rw [List.length_take] at hlen
  simp only [List.length_nil] at hlen
  have hcl : 0 < chunk_length := by norm_num [chunk_length]
  omega

/-- The wave's bookkeeping: `parsed_pages` is extended by exactly the
dispatched tasks. -/
theorem wave_parsed (F : Fetcher) (st : ParseState) :
    (wave F st).parsed_pages = st.parsed_pages ++ dispatchedTasks st.tasks := rfl

/-- The surviving frontier of a wave has no duplicates. -/
theorem wave_tasks_nodup (F : Fetcher) (st : ParseState) :
    (wave F st).tasks.Nodup :=
  (List.nodup_dedup _).filter _

/-- The surviving frontier of a wave avoids everything recorded in
`parsed_pages`. -/
theorem wave_tasks_not_parsed (F : Fetcher) (st : ParseState) :
    ∀ t ∈ (wave F st).tasks, t ∉ (wave F st).parsed_pages := by
  intro t ht
  rw [wave_parsed]
  simp only [wave] at ht
  exact of_decide_eq_true (List.mem_filter.1 ht).2

/-- Every surviving frontier task came out of some dispatched fetch. -/
theorem wave_tasks_from_fetcher (F : Fetcher) (st : ParseState) :
    ∀ t ∈ (wave F st).tasks, ∃ d ∈ dispatchedTasks st.tasks, t ∈ (F d).1 := by
  intro t ht
  have h1 : t ∈ ((dispatchedTasks st.tasks).map F |>.map Prod.fst).flatten := by
    have := List.mem_of_mem_filter ht
    exact List.mem_dedup.1 this
  rw [List.map_map] at h1
  obtain ⟨l, hl, htl⟩ := List.mem_flatten.1 h1
  obtain ⟨d, hd, rfl⟩ := List.mem_map.1 hl
  exact ⟨d, hd, htl⟩

/-- A wave over an undersized frontier empties it without dispatching. -/
theorem wave_small (F : Fetcher) (st : ParseState)
    (h : st.tasks.length < chunk_length) :
    wave F st = ⟨[], st.parsed_pages, st.graph⟩ := by
  simp [wave, dispatchedTasks_small st.tasks h]

/-- A successful run always ends with an empty frontier. -/
theorem parseLoop_final_tasks (F : Fetcher) :
    ∀ (fuel : Nat) (st stf : ParseState) (trace : List String),
      parseLoop F fuel st = some (stf, trace) → stf.tasks = [] := by
  intro fuel
  induction fuel with
  | zero =>
      intro st stf trace h
      rw [parseLoop] at h
      by_cases he : st.tasks = []
      · rw [if_pos he] at h
        simp only [Option.some.injEq, Prod.mk.injEq] at h
        rw [← h.1]
        exact he
      · rw [if_neg he] at h
        exact absurd h (by simp)
  | succ n ih =>
      intro st stf trace h
      rw [parseLoop] at h
      by_cases he : st.tasks = []
      · rw [if_pos he] at h
        simp only [Option.some.injEq, Prod.mk.injEq] at h
        rw [← h.1]
        exact he
      · rw [if_neg he, Option.map_eq_some'] at h
        obtain ⟨⟨st', tr'⟩, hrun, heq⟩ := h
        simp only [Prod.mk.injEq] at heq
        exact heq.1 ▸ ih _ _ _ hrun

/-- The dispatch-trace invariant: starting from a duplicate-free frontier
disjoint from the bookkeeping list, a completed run's dispatch trace has no
duplicates and avoids the initial bookkeeping list. -/
theorem parseLoop_trace_nodup (F : Fetcher) :
    ∀ (fuel : Nat) (st stf : ParseState) (trace : List String),
      st.tasks.Nodup → (∀ t ∈ st.tasks, t ∉ st.parsed_pages) →
      parseLoop F fuel st = some (stf, trace) →
      trace.Nodup ∧ ∀ t ∈ trace, t ∉ st.parsed_pages := by
  intro fuel
  induction fuel with
  | zero =>
      intro st stf trace hnd hdisj h
      rw [parseLoop] at h
      by_cases he : st.tasks = []
      · rw [if_pos he] at h
        simp only [Option.some.injEq, Prod.mk.injEq] at h
        rw [← h.2]
        simp
      · rw [if_neg he] at h
        exact absurd h (by simp)
  | succ n ih =>
      intro st stf trace hnd hdisj h
      rw [parseLoop] at h
      by_cases he : st.tasks = []
      · rw [if_pos he] at h
        simp only [Option.some.injEq, Prod.mk.injEq] at h
        rw [← h.2]
        simp
      · rw [if_neg he, Option.map_eq_some'] at h
        obtain ⟨⟨st', tr'⟩, hrun, heq⟩ := h
        simp only [Prod.mk.injEq] at heq
        obtain ⟨-, h2⟩ := heq
        subst h2
        have hD_nodup : (dispatchedTasks st.tasks).Nodup :=
          (dispatchedTasks_sublist st.tasks).nodup hnd
        have hD_sub : ∀ t ∈ dispatchedTasks st.tasks, t ∈ st.tasks :=
          fun t ht => (dispatchedTasks_sublist st.tasks).subset ht
        have hw := ih (wave F st) st' tr' (wave_tasks_nodup F st)
          (wave_tasks_not_parsed F st) hrun
        constructor
        · rw [List.nodup_append]
          refine ⟨hD_nodup, hw.1, ?_⟩
          intro t htD htr'
          have hnp := hw.2 t htr'
          rw [wave_parsed] at hnp
          exact hnp (List.mem_append_right _ htD)
        · intro t ht
          rcases List.mem_append.1 ht with h1 | h2
          · exact hdisj t (hD_sub t h1)
          · have hnp := hw.2 t h2
            rw [wave_parsed] at hnp
            exact fun hc => hnp (List.mem_append_left _ hc)

/-- An empty frontier finishes immediately, with any fuel. -/
theorem parseLoop_empty (F : Fetcher) (fuel : Nat) (parsed : List String)
    (g : Finset Trip) :
    parseLoop F fuel ⟨[], parsed, g⟩ = some (⟨[], parsed, g⟩, []) := by
  cases fuel with
  | zero => rw [parseLoop]; simp
  | succ n => rw [parseLoop]; simp

/-- Sufficient fuel exists whenever the fetcher's discoveries stay inside a
finite universe `U`: induction on the part of `U` not yet recorded in
`parsed_pages`. -/
theorem parse_terminates_aux (F : Fetcher) (U : Finset String)
    (hF : ∀ t u, u ∈ (F t).1 → u ∈ U) :
    ∀ (n : Nat) (parsed0 tasks0 : List String) (g0 : Finset Trip),
      (U.filter (fun u => u ∉ parsed0)).card ≤ n →
      (∀ t ∈ tasks0, t ∈ U) → tasks0.Nodup →
      (∀ t ∈ tasks0, t ∉ parsed0) →
      ∃ fuel stf trace,
        parseLoop F fuel ⟨tasks0, parsed0, g0⟩ = some (stf, trace) := by
  intro n
  induction n with
  | zero =>
      intro parsed0 tasks0 g0 hcard hU hnd hdisj
      cases tasks0 with
      | nil => exact ⟨0, ⟨[], parsed0, g0⟩, [], parseLoop_empty F 0 parsed0 g0⟩
      | cons t ts =>
          exfalso
          have hmem : t ∈ U.filter (fun u => u ∉ parsed0) :=
            Finset.mem_filter.2 ⟨hU t (by simp), hdisj t (by simp)⟩
          have hpos := Finset.card_pos.2 ⟨t, hmem⟩
          omega
  | succ n ih =>
      intro parsed0 tasks0 g0 hcard hU hnd hdisj
      by_cases he : tasks0 = []
      · subst he
        exact ⟨0, ⟨[], parsed0, g0⟩, [], parseLoop_empty F 0 parsed0 g0⟩
      by_cases hlen : tasks0.length < chunk_length
      · refine ⟨2, ⟨[], parsed0, g0⟩, [], ?_⟩
        have hw : wave F ⟨tasks0, parsed0, g0⟩ = ⟨[], parsed0, g0⟩ := by
          have hws := wave_small F ⟨tasks0, parsed0, g0⟩ hlen
          simpa using hws
        show parseLoop F (1 + 1) ⟨tasks0, parsed0, g0⟩ = _
        rw [parseLoop, if_neg he, hw, parseLoop_empty]
        simp [dispatchedTasks_small tasks0 hlen]
      · push_neg at hlen
        have hU' : ∀ t ∈ (wave F ⟨tasks0, parsed0, g0⟩).tasks, t ∈ U := by
          intro t ht
          obtain ⟨d, _, htF⟩ := wave_tasks_from_fetcher F ⟨tasks0, parsed0, g0⟩ t ht
          exact hF d t htF
        have hnd' := wave_tasks_nodup F ⟨tasks0, parsed0, g0⟩
        have hdisj' := wave_tasks_not_parsed F ⟨tasks0, parsed0, g0⟩
        have hsub : U.filter (fun u => u ∉ (wave F ⟨tasks0, parsed0, g0⟩).parsed_pages)
            ⊆ U.filter (fun u => u ∉ parsed0) := by
          intro u hu
          rw [Finset.mem_filter] at hu ⊢
          refine ⟨hu.1, fun hc => hu.2 ?_⟩
          rw [wave_parsed]
          exact List.mem_append_left _ hc
        obtain ⟨d, hdmem⟩ := List.exists_mem_of_ne_nil _ (dispatchedTasks_ne_nil tasks0 hlen)
        have hdtasks : d ∈ tasks0 := (dispatchedTasks_sublist tasks0).subset hdmem
        have hd1 : d ∈ U.filter (fun u => u ∉ parsed0) :=
          Finset.mem_filter.2 ⟨hU d hdtasks, hdisj d hdtasks⟩
        have hd2 : d ∉ U.filter
            (fun u => u ∉ (wave F ⟨tasks0, parsed0, g0⟩).parsed_pages) := by
          rw [Finset.mem_filter]
          intro hc
          refine hc.2 ?_
          rw [wave_parsed]
          exact List.mem_append_right _ hdmem
        have hss := (Finset.ssubset_iff_of_subset hsub).2 ⟨d, hd1, hd2⟩
        have hlt := Finset.card_lt_card hss
        obtain ⟨fuel, stf, trace, hrun⟩ :=
          ih (wave F ⟨tasks0, parsed0, g0⟩).parsed_pages
            (wave F ⟨tasks0, parsed0, g0⟩).tasks
            (wave F ⟨tasks0, parsed0, g0⟩).graph
            (by omega) hU' hnd' hdisj'
        refine ⟨fuel + 1, stf, dispatchedTasks tasks0 ++ trace, ?_⟩
        rw [parseLoop, if_neg he]
        have heta : (⟨(wave F ⟨tasks0, parsed0, g0⟩).tasks,
            (wave F ⟨tasks0, parsed0, g0⟩).parsed_pages,
            (wave F ⟨tasks0, parsed0, g0⟩).graph⟩ : ParseState)
            = wave F ⟨tasks0, parsed0, g0⟩ := rfl
        rw [heta] at hrun
        rw [hrun]
        rfl

/-- Claim C9: with a total fetcher whose discoveries stay inside a finite
universe, the wave loop terminates: some finite fuel completes the run and
the final frontier is empty. -/
theorem parse_wave_loop_terminates (F : Fetcher) (U : Finset String)
    (entry : String) (g0 : Finset Trip) (hentry : entry ∈ U)
    (hF : ∀ t u, u ∈ (F t).1 → u ∈ U) :
    ∃ fuel stf trace,
      parseLoop F fuel ⟨[entry], [], g0⟩ = some (stf, trace) ∧ stf.tasks = [] := by
  obtain ⟨fuel, stf, trace, hrun⟩ :=
    parse_terminates_aux F U hF
      ((U.filter (fun u => u ∉ ([] : List String))).card) [] [entry] g0 le_rfl
      (by intro t ht; rw [List.mem_singleton] at ht; rwa [ht])
      (by simp) (by simp)
  exact ⟨fuel, stf, trace, hrun, parseLoop_final_tasks F fuel _ _ _ hrun⟩

/-- Witness for C9 at a concrete fetcher that discovers nothing. -/
theorem parse_wave_loop_terminates_w :
    ∃ fuel stf trace,
      parseLoop cFetchNone fuel ⟨[cEntry], [], ∅⟩ = some (stf, trace) ∧
      stf.tasks = [] :=
  parse_wave_loop_terminates cFetchNone {cEntry} cEntry ∅
    (Finset.mem_singleton_self cEntry)
    (fun _ u h => absurd h (List.not_mem_nil u))

/-- Claim C2: starting from a duplicate-free initial frontier and empty
bookkeeping (the constructor state), a completed run never dispatches the
same task URI twice: the dispatch trace has no duplicates. -/
theorem parse_at_most_once_dispatch (F : Fetcher) (fuel : Nat)
    (tasks0 : List String) (g0 : Finset Trip) (stf : ParseState)
    (trace : List String) (hnd : tasks0.Nodup)
    (hrun : parseLoop F fuel ⟨tasks0, [], g0⟩ = some (stf, trace)) :
    trace.Nodup :=
  (parseLoop_trace_nodup F fuel ⟨tasks0, [], g0⟩ stf trace hnd (by simp) hrun).1

/-- Witness for C2: a full chunk of eight distinct tasks is dispatched once
each. -/
theorem parse_at_most_once_dispatch_w :
    parseLoop cFetchNone 2 ⟨cTasks8, [], ∅⟩ = some (⟨[], cTasks8, ∅⟩, cTasks8) ∧
    cTasks8.Nodup :=
  ⟨by decide, parse_at_most_once_dispatch cFetchNone 2 cTasks8 ∅
    ⟨[], cTasks8, ∅⟩ cTasks8 (by decide) (by decide)⟩

/-- Claim C10: after any wave, the surviving frontier (the pending task
list of every wave after the first) has no duplicate identifiers and no
identifier recorded in the parsed-pages bookkeeping list. -/
theorem frontier_nodup_disjoint_invariant (F : Fetcher) (st : ParseState) :
    (wave F st).tasks.Nodup ∧
    ∀ t ∈ (wave F st).tasks, t ∉ (wave F st).parsed_pages :=
  ⟨wave_tasks_nodup F st, wave_tasks_not_parsed F st⟩

/-- Witness for C10 on a concrete wave with eight dispatches and eight
fresh discoveries. -/
theorem frontier_nodup_disjoint_invariant_w :
    "http://pflu.evolbio.mpg.de/web-services/content/v0.1/Gene/1/x"
      ∉ (wave cFetchLink ⟨cTasks8, [], ∅⟩).parsed_pages :=
  (frontier_nodup_disjoint_invariant cFetchLink ⟨cTasks8, [], ∅⟩).2 _ (by decide)

/-- Claim C1 (refuted, code bug): each wave dispatches only
`chunk_length * (len / chunk_length)` tasks — the floor-division chunking
drops `len mod chunk_length` pending tasks — and concretely a run whose
frontier is a sole entry point dispatches nothing at all: it returns with
an empty trace, empty bookkeeping and empty graph, leaving the entry point
unfetched. -/
theorem parse_chunking_drops_remainder :
    (∀ tasks : List String,
      (dispatchedTasks tasks).length
        = chunk_length * (tasks.length / chunk_length)) ∧
    parseLoop cFetchLink 2 ⟨[cEntry], [], ∅⟩ = some (⟨[], [], ∅⟩, []) := by
  constructor
  · intro tasks
    rw [dispatchedTasks_eq, List.length_take]
    refine Nat.min_eq_left ?_
    rw [Nat.mul_comm]
    exact Nat.div_mul_le_self _ _
  · decide

/-- Reads below a freshly appended cell are unaffected. -/
theorem Heap.get_of_append (h : Heap) (g : Finset Trip) (r : Nat)
    (hr : r < h.cells.length) :
    (Heap.mk (h.cells ++ [g])).get r = h.get r := by
  unfold Heap.get
  exact List.getD_append _ _ _ _ hr

/-- Writing one cell leaves every other cell unchanged. -/
theorem Heap.get_set_ne (h : Heap) (r rTgt : Nat) (g : Finset Trip)
    (hne : r ≠ rTgt) : (h.set rTgt g).get r = h.get r := by
  unfold Heap.get Heap.set
  simp only [List.getD, List.get?_eq_getElem?]
  rw [List.getElem?_set_ne (fun hc => hne hc.symm)]

/-- A crawl mutating only the parser's cell never changes another cell. -/
theorem crawlMutations_get_other (r rTgt : Nat) (hne : r ≠ rTgt) :
    ∀ (fs : List (Finset Trip → Finset Trip)) (hh : Heap),
      (crawlMutations hh rTgt fs).get r = hh.get r := by
  intro fs
  induction fs with
  | nil => intro hh; rfl
  | cons f fs ih =>
      intro hh
      have hstep : crawlMutations hh rTgt (f :: fs)
          = crawlMutations (mutateAt hh rTgt f) rTgt fs := rfl
      rw [hstep, ih]
      exact Heap.get_set_ne hh r rTgt _ hne

/-- Claim C6: the graph setter deep-copies the caller's graph into a fresh
cell, so right after construction and after any complete crawl (any
sequence of in-place merges into the parser's cell) the caller's cell still
holds exactly its original statements. -/
theorem graph_defensive_copy (h : Heap) (caller : Nat)
    (hvalid : caller < h.cells.length)
    (fs : List (Finset Trip → Finset Trip)) :
    ((graphSetter h caller).1).get caller = h.get caller ∧
    (crawlMutations (graphSetter h caller).1 (graphSetter h caller).2 fs).get caller
      = h.get caller := by
  have h1 : ((graphSetter h caller).1).get caller = h.get caller :=
    Heap.get_of_append h _ caller hvalid
  refine ⟨h1, ?_⟩
  have hne : caller ≠ (graphSetter h caller).2 := by
    simp only [graphSetter]
    omega
  rw [crawlMutations_get_other caller (graphSetter h caller).2 hne fs _]
  exact h1

/-- Witness for C6: one caller cell, one merge during the crawl; the
caller's statements survive untouched. -/
theorem graph_defensive_copy_w :
    0 < cHeap.cells.length ∧
    (crawlMutations (graphSetter cHeap 0).1 (graphSetter cHeap 0).2 cMerge).get 0
      = cHeap.get 0 :=
  ⟨by decide, (graph_defensive_copy cHeap 0 (by decide) cMerge).2⟩

/-- Claim C8: whenever any of the three constructor arguments has an
invalid runtime type (a serialize_nodes flag that is neither None nor a
bool, an entry point that is neither None, a str nor a URIRef, a graph
that is neither None nor a Graph), construction raises TypeError
synchronously. -/
theorem construction_time_validation (gv sv ev : PyValue)
    (h : validGraphArg gv = false ∨ validBoolArg sv = false ∨
      validEntryArg ev = false) :
    isTypeError (initParser gv sv ev) = true := by
  cases gv <;> cases sv <;> cases ev <;>
    simp_all [initParser, graph_value_setter, serialize_nodes_setter,
      entry_point_setter, validGraphArg, validBoolArg, validEntryArg,
      isTypeError, Bind.bind, Except.bind]

/-- Witness for C8: an integer-like value for serialize_nodes is rejected
at construction. -/
theorem construction_time_validation_w :
    validBoolArg (PyValue.pyOther "int 42") = false ∧
    isTypeError
      (initParser (PyValue.pyGraph ∅) (PyValue.pyOther "int 42")
        PyValue.pyNone) = true :=
  ⟨rfl, construction_time_validation _ _ _ (Or.inr (Or.inl rfl))⟩

/-- Claim C7: `cleanup` keeps exactly the statements matching none of the
three fixed patterns (object the local placeholder URI, object the
canonical collection-view URI, or predicate the hydra
PartialCollectionView marker), and applying it twice equals applying it
once. -/
theorem cleanup_patterns_idempotent (g : Finset Trip) :
    (∀ t : Trip, t ∈ cleanup g ↔ t ∈ g ∧
      ¬(t.obj = Node.uriRef "file:///tmp/PartialCollectionView" ∨
        t.obj = Node.uriRef
          "http://pflu.evolbio.mpg.de/web-services/content/v0.1/PartialCollectionView" ∨
        t.pred = hydraPCV)) ∧
    cleanup (cleanup g) = cleanup g := by
  constructor
  · intro t
    simp [cleanup, remove_terms, matchesPattern, Finset.mem_filter]
    tauto
  · ext t
    simp [cleanup, remove_terms, matchesPattern, Finset.mem_filter]
    tauto

end Tripser
